import Mathlib

/-
Verification of the language-tutor chat client (dual-request orchestration).

The embedding models the `ChatApp` class of the dual-request variant
(the one that issues a streaming reply request and a schema-constrained
correction request concurrently).  Stateful code is modelled by explicit
state passing: `sendMessage` maps an application state and a per-turn
environment (the outcomes the network delivers for this turn) to the new
state together with the ordered list of observable events the turn emits.
The environment's `corrResolveAfter` field models the point in real time
at which the correction promise settles (after that many stream chunks),
which the JavaScript event loop interleaves with the delta loop.
-/

namespace LanguageTutor

/-- Message role, from the `Message` interface. -/
inductive Role
  | system
  | user
  | assistant
deriving Repr, DecidableEq

/-- A chat message: `{role, content}`. -/
structure Message where
  role : Role
  content : String
deriving Repr, DecidableEq

/-- The `type` field of a correction item: `error` or `style`. -/
inductive CorrectionType
  | error
  | style
deriving Repr, DecidableEq

/-- One element of `CorrectionResponse.corrections`. -/
structure CorrectionItem where
  type : CorrectionType
  original : String
  suggestion : String
  explanation : String
deriving Repr, DecidableEq

/-- The `CorrectionResponse` interface. -/
structure CorrectionResponse where
  hasCorrections : Bool
  corrections : List CorrectionItem
deriving Repr, DecidableEq

/-- Checks whether `hay` begins with `needle` (character lists). -/
def beginsWith : List Char → List Char → Bool
  | _, [] => true
  | [], _ :: _ => false
  | h :: hs, n :: ns => h == n && beginsWith hs ns

/-- Checks whether `needle` occurs contiguously inside `hay` (character lists). -/
def containsSeq : List Char → List Char → Bool
  | [], needle => needle.isEmpty
  | h :: t, needle => beginsWith (h :: t) needle || containsSeq t needle

/-- JavaScript `hay.includes(needle)` on strings. -/
def strIncludes (hay needle : String) : Bool :=
  containsSeq hay.data needle.data

/-- JavaScript `s.trim()`: strips leading and trailing whitespace. -/
def jsTrim (s : String) : String :=
  ⟨((s.data.dropWhile fun c => c.isWhitespace).reverse.dropWhile
      fun c => c.isWhitespace).reverse⟩

/-- Observable events a call to `sendMessage` emits, in program order.
`corrResolved` marks the instant the correction promise settles. -/
inductive Event
  | setBusy
  | netCorrRequest
  | renderUser (content : String)
  | pushUser (content : String)
  | renderPlaceholder
  | netStreamRequest
  | delta (text : String)
  | corrResolved (result : Option CorrectionResponse)
  | pushAssistant (content : String)
  | awaitCorr
  | attach (c : CorrectionResponse)
  | renderError (msg : String)
  | scheduleShowSettings (delayMs : Nat)
  | alertNoKey
  | showSettings
  | releaseBusy
deriving Repr, DecidableEq

/-- Result of `JSON.parse(content) as CorrectionResponse`: either a parsed
value or a thrown parse error. -/
inductive JsonParseResult
  | parsed (c : CorrectionResponse)
  | parseError (msg : String)

/-- Outcome of the reply stream for one turn: either the full chunk list of
a normally completing stream, or the chunks yielded before the stream (or
its creation) threw, together with the thrown error's message.  Each chunk
is `chunk.choices[0]?.delta?.content`, absent content modelled as `none`. -/
inductive ReplyOutcome
  | success (chunks : List (Option String))
  | failure (yielded : List (Option String)) (errMsg : String)

/-- The text extracted from one chunk: `chunk.choices[0]?.delta?.content || ''`. -/
def extractDelta (chunk : Option String) : String :=
  chunk.getD ""

/-- The accumulated `fullContent` after folding `fullContent += delta`
over every chunk of the stream. -/
def fullContentOf (chunks : List (Option String)) : String :=
  chunks.foldl (fun acc c => acc ++ extractDelta c) ""

/-- The environment of one turn: the raw textarea value and the outcomes
the network delivers for the two concurrent requests of this turn. -/
structure TurnEnv where
  inputRaw : String
  replyOutcome : ReplyOutcome
  corrProvider : Except String (Option String)
  parse : String → JsonParseResult
  corrResolveAfter : Nat

/-- The mutable fields of `ChatApp` the claims are about: whether `openai`
is non-null, the `messages` array, `isStreaming`, and whether the settings
modal is visible. -/
structure AppState where
  openaiConfigured : Bool
  messages : List Message
  isStreaming : Bool
  settingsVisible : Bool
deriving Repr, DecidableEq

/-- `getCorrections`: returns null if `openai` is null; otherwise issues the
request and returns the parsed `CorrectionResponse`, or null if the request
threw, the response carried no content, or `JSON.parse` threw. -/
def getCorrections (cfg : Bool) (providerResult : Except String (Option String))
    (parse : String → JsonParseResult) : Option CorrectionResponse :=
  if cfg = false then none
  else
    match providerResult with
    | .error _ => none
    | .ok none => none
    | .ok (some content) =>
      match parse content with
      | .parsed c => some c
      | .parseError _ => none

/-- `getCorrections` together with the events it emits: a network request is
made exactly when `openai` is configured (the guard returns before any
network attempt otherwise). -/
def getCorrectionsRun (cfg : Bool) (providerResult : Except String (Option String))
    (parse : String → JsonParseResult) : Option CorrectionResponse × List Event :=
  (getCorrections cfg providerResult parse,
   if cfg then [Event.netCorrRequest] else [])

/-- Whether `addCorrectionsToMessage` attaches a visible badge: it returns
early when `hasCorrections` is false or the list is empty. -/
def badgeAttached (c : CorrectionResponse) : Bool :=
  c.hasCorrections && !c.corrections.isEmpty

/-- Inserts `x` into `l` after the first `r` elements (or at the end when
`r` exceeds the length); used to place the correction-resolution instant
among the delta events. -/
def insertAt (r : Nat) (x : Event) (l : List Event) : List Event :=
  l.take r ++ x :: l.drop r

/-- The body of `sendMessage` past the guards: fire `getCorrections`, render
and push the user message, render the placeholder, run the stream loop, and
either commit the assistant message and attach corrections (success) or
render the error and possibly schedule reopening settings (failure). -/
def sendMessageBody (st : AppState) (env : TurnEnv) : AppState × List Event :=
  let content := (jsTrim env.inputRaw)
  let corr := getCorrectionsRun st.openaiConfigured env.corrProvider env.parse
  let header := Event.setBusy :: corr.2 ++
    [Event.renderUser content, Event.pushUser content,
     Event.renderPlaceholder, Event.netStreamRequest]
  match env.replyOutcome with
  | .success chunks =>
    let ds := chunks.map (fun c => Event.delta (extractDelta c))
    let streamPart :=
      if env.corrResolveAfter ≤ chunks.length
      then insertAt env.corrResolveAfter (Event.corrResolved corr.1) ds
      else ds
    let afterCommit :=
      if env.corrResolveAfter ≤ chunks.length
      then [Event.awaitCorr]
      else [Event.awaitCorr, Event.corrResolved corr.1]
    let attachPart :=
      match corr.1 with
      | some c => [Event.attach c]
      | none => []
    ({ st with
        messages := st.messages ++
          [⟨Role.user, content⟩, ⟨Role.assistant, fullContentOf chunks⟩],
        isStreaming := false },
     header ++ streamPart ++ Event.pushAssistant (fullContentOf chunks) ::
       (afterCommit ++ attachPart ++ [Event.releaseBusy]))
  | .failure yielded errMsg =>
    let ds := yielded.map (fun c => Event.delta (extractDelta c))
    let streamPart :=
      if env.corrResolveAfter ≤ yielded.length
      then insertAt env.corrResolveAfter (Event.corrResolved corr.1) ds
      else ds
    let authPart :=
      if strIncludes errMsg "401" || strIncludes errMsg "API key"
      then [Event.scheduleShowSettings 1000]
      else []
    let tailPart :=
      if env.corrResolveAfter ≤ yielded.length
      then []
      else [Event.corrResolved corr.1]
    ({ st with
        messages := st.messages ++ [⟨Role.user, content⟩],
        isStreaming := false },
     header ++ streamPart ++ Event.renderError ("Error: " ++ errMsg) ::
       (authPart ++ [Event.releaseBusy] ++ tailPart))

/-- `sendMessage`: the no-credential guard alerts and shows settings; the
empty-input / re-entry guard returns silently; otherwise the body runs. -/
def sendMessage (st : AppState) (env : TurnEnv) : AppState × List Event :=
  if st.openaiConfigured = false then
    ({ st with settingsVisible := true }, [Event.alertNoKey, Event.showSettings])
  else if (jsTrim env.inputRaw).isEmpty || st.isStreaming then
    (st, [])
  else
    sendMessageBody st env

/-- The persona system message pushed by `init`. -/
def personaMessage : Message :=
  ⟨Role.system,
   "You are a friendly and patient Spanish conversation partner helping language learners practice their Spanish. Your role is to:\n\n- Have natural, engaging conversations entirely in Spanish\n- Be warm, approachable, and encouraging\n- Keep the conversation flowing by asking follow-up questions\n- Adapt to the learner's level while gently introducing new vocabulary\n- Discuss a variety of interesting topics\n- Be enthusiastic and make learning feel like chatting with a friend\n\nRemember: You're here to help them practice, so always respond in Spanish and keep the conversation going!"⟩

/-- The state after `init`: `loadApiKey` configures `openai` when a key is
stored, the persona system message is pushed, and settings are shown when
no key is configured. -/
def initState (hasKey : Bool) : AppState :=
  { openaiConfigured := hasKey
    messages := [personaMessage]
    isStreaming := false
    settingsVisible := !hasKey }

/-- Runs a sequence of turns, threading the state. -/
def runTurns (st : AppState) (envs : List TurnEnv) : AppState :=
  envs.foldl (fun s e => (sendMessage s e).1) st

/-- The chunk list of a reply outcome (the full list on success, the
yielded prefix on failure). -/
def replyChunks : ReplyOutcome → List (Option String)
  | .success chunks => chunks
  | .failure yielded _ => yielded

/-- Whether a reply outcome is a normal completion. -/
def isSuccess : ReplyOutcome → Bool
  | .success _ => true
  | .failure _ _ => false

/-- The user/assistant message pairs a list of successful turns appends. -/
def turnPairs : List TurnEnv → List Message
  | [] => []
  | e :: rest =>
    ⟨Role.user, (jsTrim e.inputRaw)⟩ ::
      ⟨Role.assistant, fullContentOf (replyChunks e.replyOutcome)⟩ ::
        turnPairs rest

/-- Event classifiers used by the stated properties. -/
def isDeltaEvt : Event → Bool
  | .delta _ => true
  | _ => false

/-- The delta text carried by a delta event. -/
def deltaTextOf : Event → Option String
  | .delta s => some s
  | _ => none

/-- Recognizes the correction-attachment event. -/
def isAttachEvt : Event → Bool
  | .attach _ => true
  | _ => false

/-- Recognizes the assistant-commit event. -/
def isPushAssistantEvt : Event → Bool
  | .pushAssistant _ => true
  | _ => false

/-- Recognizes the correction-promise-settled event. -/
def isCorrResolvedEvt : Event → Bool
  | .corrResolved _ => true
  | _ => false

/-- Recognizes the busy-release event. -/
def isReleaseBusyEvt : Event → Bool
  | .releaseBusy => true
  | _ => false

/-- Recognizes the two busy-flag transitions. -/
def isBusyEvt : Event → Bool
  | .setBusy => true
  | .releaseBusy => true
  | _ => false

/-- Recognizes a network request (stream or correction). -/
def isNetEvt : Event → Bool
  | .netCorrRequest => true
  | .netStreamRequest => true
  | _ => false

/-- Recognizes the await of the correction promise. -/
def isAwaitCorrEvt : Event → Bool
  | .awaitCorr => true
  | _ => false

/-- Recognizes an append to Conversation State. -/
def isPushEvt : Event → Bool
  | .pushUser _ => true
  | .pushAssistant _ => true
  | _ => false

/-- Recognizes a rendered transcript error entry. -/
def isRenderErrorEvt : Event → Bool
  | .renderError _ => true
  | _ => false

/-- Whether some event satisfying `p` occurs strictly before the first
event satisfying `q`. -/
def occursBefore (p q : Event → Bool) (l : List Event) : Prop :=
  l.findIdx p < l.findIdx q

/-- Recognizes a scheduled settings reopen whose delay differs from the
fixed 1000 ms of the source. -/
def isSchedNot1000 : Event → Bool
  | .scheduleShowSettings d => d != 1000
  | _ => false

/-- Recognizes any scheduled settings reopen. -/
def isSchedEvt : Event → Bool
  | .scheduleShowSettings _ => true
  | _ => false

/-- A correction result used by the concrete test environments. -/
def sampleCorrection : CorrectionResponse :=
  ⟨true, [⟨CorrectionType.error, "ola", "hola", "missing h"⟩]⟩

/-- A parse function that always succeeds with `sampleCorrection`. -/
def parseAlways : String → JsonParseResult :=
  fun _ => JsonParseResult.parsed sampleCorrection

/-- A turn whose stream succeeds with two chunks and whose correction
promise resolves after the first chunk (mid-stream). -/
def envStreamOk : TurnEnv :=
  { inputRaw := " hola "
    replyOutcome := .success [some "¡", some "Hola!"]
    corrProvider := .ok (some "payload")
    parse := parseAlways
    corrResolveAfter := 1 }

/-- As `envStreamOk`, but the correction promise resolves only after the
stream has finished. -/
def envStreamOkLate : TurnEnv :=
  { envStreamOk with corrResolveAfter := 5 }

/-- A turn whose stream throws a 401 error after one chunk, with the
correction promise still pending at that point. -/
def envStreamFail : TurnEnv :=
  { inputRaw := "hola"
    replyOutcome := .failure [some "par"] "401 Unauthorized"
    corrProvider := .ok (some "payload")
    parse := parseAlways
    corrResolveAfter := 5 }

/-- A turn whose stream creation throws a non-auth transport error. -/
def envStreamFailPlain : TurnEnv :=
  { envStreamFail with replyOutcome := .failure [] "network down" }

/-- The ready state: credential configured, persona pushed, idle. -/
def stReady : AppState := initState true

/-- A parse function that always throws, modelling `JSON.parse` on
non-JSON content. -/
def parseFails : String → JsonParseResult :=
  fun s => JsonParseResult.parseError s

/-- A turn whose reply succeeds but whose correction response carries
unparsable content, so `getCorrections` yields null. -/
def envCorrFail : TurnEnv :=
  { inputRaw := "hola"
    replyOutcome := .success [some "¡Hola!"]
    corrProvider := .ok (some "notjson")
    parse := parseFails
    corrResolveAfter := 0 }

theorem mem_insertAt (r : Nat) (x e : Event) (l : List Event) :
    e ∈ insertAt r x l ↔ e = x ∨ e ∈ l := by
  unfold insertAt
  constructor
  · intro h
    rcases List.mem_append.mp h with h1 | h2
    · exact Or.inr (List.mem_of_mem_take h1)
    · rcases List.mem_cons.mp h2 with h3 | h4
      · exact Or.inl h3
      · exact Or.inr (List.mem_of_mem_drop h4)
  · intro h
    rcases h with h | h
    · exact List.mem_append.mpr (Or.inr (h ▸ List.mem_cons_self x _))
    · rw [← List.take_append_drop r l] at h
      rcases List.mem_append.mp h with h1 | h2
      · exact List.mem_append.mpr (Or.inl h1)
      · exact List.mem_append.mpr (Or.inr (List.mem_cons_of_mem x h2))

theorem filterMap_insertAt_none (f : Event → Option String) (r : Nat) (x : Event)
    (l : List Event) (hx : f x = none) :
    (insertAt r x l).filterMap f = l.filterMap f := by
  unfold insertAt
  rw [List.filterMap_append, List.filterMap_cons, hx, ← List.filterMap_append,
    List.take_append_drop]

theorem countP_insertAt (p : Event → Bool) (r : Nat) (x : Event) (l : List Event)
    (hx : p x = false) :
    (insertAt r x l).countP p = l.countP p := by
  unfold insertAt
  have h0 : (if false = true then 1 else 0) = 0 := rfl
  rw [List.countP_append, List.countP_cons, hx, h0, Nat.add_zero,
    ← List.countP_append, List.take_append_drop]

theorem sendMessage_accepted (st : AppState) (env : TurnEnv)
    (hconf : st.openaiConfigured = true) (hbusy : st.isStreaming = false)
    (hin : (jsTrim env.inputRaw).isEmpty = false) :
    sendMessage st env = sendMessageBody st env := by
  simp [sendMessage, hconf, hbusy, hin]

theorem sendMessageBody_success_fst (st : AppState) (env : TurnEnv)
    (chunks : List (Option String)) (hout : env.replyOutcome = .success chunks) :
    (sendMessageBody st env).1 =
      { st with
          messages := st.messages ++
            [⟨Role.user, (jsTrim env.inputRaw)⟩, ⟨Role.assistant, fullContentOf chunks⟩],
          isStreaming := false } := by
  simp [sendMessageBody, hout]

theorem sendMessageBody_failure_fst (st : AppState) (env : TurnEnv)
    (yielded : List (Option String)) (errMsg : String)
    (hout : env.replyOutcome = .failure yielded errMsg) :
    (sendMessageBody st env).1 =
      { st with
          messages := st.messages ++ [⟨Role.user, (jsTrim env.inputRaw)⟩],
          isStreaming := false } := by
  simp [sendMessageBody, hout]

theorem turnPairs_length (envs : List TurnEnv) :
    (turnPairs envs).length = 2 * envs.length := by
  induction envs with
  | nil => simp [turnPairs]
  | cons e rest ih => simp [turnPairs, ih]; omega

theorem runTurns_success_shape (envs : List TurnEnv) :
    ∀ st : AppState, st.openaiConfigured = true → st.isStreaming = false →
    (∀ e ∈ envs, (jsTrim e.inputRaw).isEmpty = false) →
    (∀ e ∈ envs, isSuccess e.replyOutcome = true) →
    (runTurns st envs).messages = st.messages ++ turnPairs envs ∧
    (runTurns st envs).openaiConfigured = true ∧
    (runTurns st envs).isStreaming = false := by
  induction envs with
  | nil =>
    intro st h1 h2 _ _
    refine ⟨?_, h1, h2⟩
    simp [runTurns, turnPairs]
  | cons e rest ih =>
    intro st h1 h2 hin hsucc
    cases hout : e.replyOutcome with
    | failure ys m =>
      exfalso
      have := hsucc e (by simp)
      rw [hout] at this
      simp [isSuccess] at this
    | success chunks =>
      have hine : (jsTrim e.inputRaw).isEmpty = false := hin e (by simp)
      have hrun : runTurns st (e :: rest) = runTurns (sendMessage st e).1 rest := rfl
      rw [hrun, sendMessage_accepted st e h1 h2 hine,
        sendMessageBody_success_fst st e chunks hout]
      have ihres := ih
        ({ st with
            messages := st.messages ++
              [⟨Role.user, (jsTrim e.inputRaw)⟩, ⟨Role.assistant, fullContentOf chunks⟩],
            isStreaming := false })
        (by simp [h1]) (by simp)
        (fun x hx => hin x (List.mem_cons_of_mem e hx))
        (fun x hx => hsucc x (List.mem_cons_of_mem e hx))
      refine ⟨?_, ihres.2.1, ihres.2.2⟩
      rw [ihres.1]
      simp [turnPairs, hout, replyChunks]

/-- C1 counterexample: a turn whose reply stream fails (here, stream
creation throws a transport error) does append a Message to Conversation
State — the user message pushed before the stream began — so the claim
that a failed reply path appends zero Messages is false. -/
theorem c1_counterexample :
    (sendMessage stReady envStreamFailPlain).1.messages =
      [personaMessage, ⟨Role.user, "hola"⟩] ∧
    stReady.messages = [personaMessage] ∧
    ([personaMessage, ⟨Role.user, "hola"⟩] : List Message) ≠ [personaMessage] := by
  refine ⟨rfl, rfl, ?_⟩
  simp

/-- C1 (amended): after N accepted turns in which every reply path
succeeded, Conversation State is exactly the persona message followed by
2×N Messages alternating user then assistant; a turn whose reply path
fails appends exactly the user Message (and no assistant Message) for
that turn. -/
theorem c1_amended_conversation_shape (envs : List TurnEnv)
    (stF : AppState) (envF : TurnEnv) (ys : List (Option String)) (m : String)
    (hin : ∀ e ∈ envs, (jsTrim e.inputRaw).isEmpty = false)
    (hsucc : ∀ e ∈ envs, isSuccess e.replyOutcome = true)
    (hconfF : stF.openaiConfigured = true) (hbusyF : stF.isStreaming = false)
    (hinF : (jsTrim envF.inputRaw).isEmpty = false)
    (houtF : envF.replyOutcome = .failure ys m) :
    (runTurns (initState true) envs).messages = personaMessage :: turnPairs envs ∧
    (runTurns (initState true) envs).messages.length = 1 + 2 * envs.length ∧
    (sendMessage stF envF).1.messages =
      stF.messages ++ [⟨Role.user, (jsTrim envF.inputRaw)⟩] := by
  have hshape := runTurns_success_shape envs (initState true) rfl rfl hin hsucc
  refine ⟨?_, ?_, ?_⟩
  · rw [hshape.1]
    simp [initState]
  · rw [hshape.1]
    simp [initState, turnPairs_length]
    omega
  · rw [sendMessage_accepted stF envF hconfF hbusyF hinF,
      sendMessageBody_failure_fst stF envF ys m houtF]

theorem c1_witness :
    (jsTrim envStreamOk.inputRaw).isEmpty = false ∧
    isSuccess envStreamOk.replyOutcome = true ∧
    ((runTurns (initState true) [envStreamOk]).messages =
        personaMessage :: turnPairs [envStreamOk] ∧
      (runTurns (initState true) [envStreamOk]).messages.length = 1 + 2 * 1 ∧
      (sendMessage stReady envStreamFail).1.messages =
        stReady.messages ++ [⟨Role.user, (jsTrim envStreamFail.inputRaw)⟩]) :=
  ⟨by decide, by decide,
    c1_amended_conversation_shape [envStreamOk] stReady envStreamFail
      [some "par"] "401 Unauthorized"
      (by intro e he; rw [List.mem_singleton] at he; subst he; decide)
      (by intro e he; rw [List.mem_singleton] at he; subst he; decide)
      rfl rfl (by decide) rfl⟩

/-- C2: for a successful turn, the delta events of the trace are exactly
the extracted chunk texts in arrival order, their concatenation is the
accumulated `fullContent`, and that exact string is committed as the
assistant Message appended to Conversation State. -/
theorem c2_stream_concat (st : AppState) (env : TurnEnv)
    (chunks : List (Option String))
    (hconf : st.openaiConfigured = true) (hbusy : st.isStreaming = false)
    (hin : (jsTrim env.inputRaw).isEmpty = false)
    (hout : env.replyOutcome = .success chunks) :
    (sendMessage st env).2.filterMap deltaTextOf = chunks.map extractDelta ∧
    ((sendMessage st env).2.filterMap deltaTextOf).foldl (fun a b => a ++ b) "" =
      fullContentOf chunks ∧
    (sendMessage st env).1.messages =
      st.messages ++ [⟨Role.user, (jsTrim env.inputRaw)⟩,
        ⟨Role.assistant, fullContentOf chunks⟩] := by
  have hdeltas : (sendMessage st env).2.filterMap deltaTextOf =
      chunks.map extractDelta := by
    rw [sendMessage_accepted st env hconf hbusy hin]
    simp only [sendMessageBody, hout, getCorrectionsRun, hconf]
    have hmap : List.filterMap (deltaTextOf ∘ fun c => Event.delta (extractDelta c))
        chunks = chunks.map extractDelta := by
      rw [show (deltaTextOf ∘ fun c => Event.delta (extractDelta c)) =
        (fun c => some (extractDelta c)) from rfl]
      rw [show (fun c : Option String => some (extractDelta c)) =
        some ∘ extractDelta from rfl, List.filterMap_eq_map]
    by_cases hr : env.corrResolveAfter ≤ chunks.length
    · rcases hc : getCorrections true env.corrProvider env.parse with _ | c
      all_goals
        simp [hr, hc, deltaTextOf, List.filterMap_append, List.filterMap_cons,
          filterMap_insertAt_none, List.filterMap_map, hmap]
    · rcases hc : getCorrections true env.corrProvider env.parse with _ | c
      all_goals
        simp [hr, hc, deltaTextOf, List.filterMap_append, List.filterMap_cons,
          List.filterMap_map, hmap]
  refine ⟨hdeltas, ?_, ?_⟩
  · rw [hdeltas, List.foldl_map]
    rfl
  · rw [sendMessage_accepted st env hconf hbusy hin,
      sendMessageBody_success_fst st env chunks hout]

theorem c2_witness :
    stReady.openaiConfigured = true ∧ (jsTrim envStreamOk.inputRaw).isEmpty = false ∧
    ((sendMessage stReady envStreamOk).2.filterMap deltaTextOf =
        [some "¡", some "Hola!"].map extractDelta ∧
      ((sendMessage stReady envStreamOk).2.filterMap deltaTextOf).foldl
        (fun a b => a ++ b) "" = fullContentOf [some "¡", some "Hola!"] ∧
      (sendMessage stReady envStreamOk).1.messages =
        stReady.messages ++ [⟨Role.user, (jsTrim envStreamOk.inputRaw)⟩,
          ⟨Role.assistant, fullContentOf [some "¡", some "Hola!"]⟩]) :=
  ⟨rfl, by decide,
    c2_stream_concat stReady envStreamOk [some "¡", some "Hola!"]
      rfl rfl (by decide) rfl⟩

theorem countP_map_chunks (p : Event → Bool) (l : List (Option String))
    (hp : ∀ s, p (Event.delta s) = false) :
    (l.map fun c => Event.delta (extractDelta c)).countP p = 0 := by
  rw [List.countP_eq_zero]
  intro a ha
  rcases List.mem_map.mp ha with ⟨ch, _, rfl⟩
  simp [hp]

theorem filter_map_chunks (p : Event → Bool) (l : List (Option String))
    (hp : ∀ s, p (Event.delta s) = false) :
    (l.map fun c => Event.delta (extractDelta c)).filter p = [] := by
  rw [List.filter_eq_nil_iff]
  intro a ha
  rcases List.mem_map.mp ha with ⟨ch, _, rfl⟩
  simp [hp]

theorem filter_insertAt_false (p : Event → Bool) (r : Nat) (x : Event)
    (l : List Event) (hx : p x = false) :
    (insertAt r x l).filter p = l.filter p := by
  unfold insertAt
  rw [List.filter_append, List.filter_cons, hx]
  simp only [Bool.false_eq_true, if_false]
  rw [← List.filter_append, List.take_append_drop]

/-- C3: a turn whose reply stream fails or aborts after zero or more deltas
appends no assistant Message to Conversation State (the trace contains no
assistant commit), while a normally completing stream commits exactly one
assistant Message, whose content is the accumulated text. -/
theorem c3_no_partial_commit (st : AppState) (envS envF : TurnEnv)
    (chunks ys : List (Option String)) (m : String)
    (hconf : st.openaiConfigured = true) (hbusy : st.isStreaming = false)
    (hinS : (jsTrim envS.inputRaw).isEmpty = false)
    (hinF : (jsTrim envF.inputRaw).isEmpty = false)
    (houtS : envS.replyOutcome = .success chunks)
    (houtF : envF.replyOutcome = .failure ys m) :
    ((sendMessage st envF).1.messages =
        st.messages ++ [⟨Role.user, jsTrim envF.inputRaw⟩] ∧
      (sendMessage st envF).2.countP isPushAssistantEvt = 0) ∧
    ((sendMessage st envS).2.countP isPushAssistantEvt = 1 ∧
      (sendMessage st envS).1.messages = st.messages ++
        [⟨Role.user, jsTrim envS.inputRaw⟩,
          ⟨Role.assistant, fullContentOf chunks⟩]) := by
  have hds : ∀ l : List (Option String),
      (l.map fun c => Event.delta (extractDelta c)).countP isPushAssistantEvt = 0 :=
    fun l => countP_map_chunks _ l (fun s => rfl)
  refine ⟨⟨?_, ?_⟩, ?_, ?_⟩
  · rw [sendMessage_accepted st envF hconf hbusy hinF,
      sendMessageBody_failure_fst st envF ys m houtF]
  · rw [sendMessage_accepted st envF hconf hbusy hinF]
    simp only [sendMessageBody, houtF, getCorrectionsRun, hconf]
    by_cases hr : envF.corrResolveAfter ≤ ys.length <;>
    by_cases hauth : (strIncludes m "401" || strIncludes m "API key") = true <;>
      simp [hr, hauth, List.countP_append, List.countP_cons, countP_insertAt,
        isPushAssistantEvt, hds]
  · rw [sendMessage_accepted st envS hconf hbusy hinS]
    simp only [sendMessageBody, houtS, getCorrectionsRun, hconf]
    by_cases hr : envS.corrResolveAfter ≤ chunks.length <;>
    rcases hc : getCorrections true envS.corrProvider envS.parse with _ | c <;>
      simp [hr, hc, List.countP_append, List.countP_cons, countP_insertAt,
        isPushAssistantEvt, hds]
  · rw [sendMessage_accepted st envS hconf hbusy hinS,
      sendMessageBody_success_fst st envS chunks houtS]

theorem c3_witness :
    stReady.openaiConfigured = true ∧
    envStreamFail.replyOutcome = .failure [some "par"] "401 Unauthorized" ∧
    (((sendMessage stReady envStreamFail).1.messages =
        stReady.messages ++ [⟨Role.user, jsTrim envStreamFail.inputRaw⟩] ∧
      (sendMessage stReady envStreamFail).2.countP isPushAssistantEvt = 0) ∧
      ((sendMessage stReady envStreamOk).2.countP isPushAssistantEvt = 1 ∧
        (sendMessage stReady envStreamOk).1.messages = stReady.messages ++
          [⟨Role.user, jsTrim envStreamOk.inputRaw⟩,
            ⟨Role.assistant, fullContentOf [some "¡", some "Hola!"]⟩])) :=
  ⟨rfl, rfl,
    c3_no_partial_commit stReady envStreamOk envStreamFail
      [some "¡", some "Hola!"] [some "par"] "401 Unauthorized"
      rfl rfl (by decide) (by decide) rfl rfl⟩

/-- C4 counterexample: in a turn where the correction promise resolves
while the reply is still streaming (after the first of two chunks), the
attachment event still happens only after the assistant commit — the
correction resolution precedes the commit, but the attachment does not,
so attachment never occurs while the reply is in flight. -/
theorem c4_counterexample :
    occursBefore isCorrResolvedEvt isPushAssistantEvt
      (sendMessage stReady envStreamOk).2 ∧
    ¬ occursBefore isAttachEvt isPushAssistantEvt
      (sendMessage stReady envStreamOk).2 ∧
    (sendMessage stReady envStreamOk).2.countP isAttachEvt = 1 := by
  refine ⟨?_, ?_, ?_⟩ <;> first
    | decide
    | (unfold occursBefore; decide)

/-- C4 (amended): when the correction request resolves with a non-null
result and the reply stream completes normally, the CorrectionResult is
attached to the user turn, but only after every delta has been applied and
the assistant Message committed — even if the correction promise resolved
while the reply was still streaming. -/
theorem c4_amended_attach_after_commit (st : AppState) (env : TurnEnv)
    (chunks : List (Option String)) (c : CorrectionResponse)
    (hconf : st.openaiConfigured = true) (hbusy : st.isStreaming = false)
    (hin : (jsTrim env.inputRaw).isEmpty = false)
    (hout : env.replyOutcome = .success chunks)
    (hcorr : getCorrections st.openaiConfigured env.corrProvider env.parse = some c) :
    ∃ pre,
      (sendMessage st env).2 = pre ++ [Event.attach c, Event.releaseBusy] ∧
      Event.pushAssistant (fullContentOf chunks) ∈ pre ∧
      pre.countP isAttachEvt = 0 ∧
      ∀ d, Event.delta d ∈ (sendMessage st env).2 → Event.delta d ∈ pre := by
  rw [hconf] at hcorr
  rw [sendMessage_accepted st env hconf hbusy hin]
  simp only [sendMessageBody, hout, getCorrectionsRun, hconf]
  have hds : ∀ l : List (Option String),
      (l.map fun ch => Event.delta (extractDelta ch)).countP isAttachEvt = 0 :=
    fun l => countP_map_chunks _ l (fun s => rfl)
  by_cases hr : env.corrResolveAfter ≤ chunks.length
  · refine ⟨Event.setBusy :: Event.netCorrRequest ::
      Event.renderUser (jsTrim env.inputRaw) :: Event.pushUser (jsTrim env.inputRaw) ::
      Event.renderPlaceholder :: Event.netStreamRequest ::
      (insertAt env.corrResolveAfter (Event.corrResolved (some c))
        (chunks.map fun ch => Event.delta (extractDelta ch)) ++
       [Event.pushAssistant (fullContentOf chunks), Event.awaitCorr]), ?_, ?_, ?_, ?_⟩
    · simp [hr, hcorr]
    · simp
    · simp [List.countP_append, List.countP_cons, countP_insertAt,
        isAttachEvt, hds]
    · intro d hd
      simp only [hr, if_true, hcorr] at hd
      simp only [List.mem_cons, List.mem_append, List.cons_append,
        List.nil_append, List.mem_singleton] at hd ⊢
      tauto
  · refine ⟨Event.setBusy :: Event.netCorrRequest ::
      Event.renderUser (jsTrim env.inputRaw) :: Event.pushUser (jsTrim env.inputRaw) ::
      Event.renderPlaceholder :: Event.netStreamRequest ::
      ((chunks.map fun ch => Event.delta (extractDelta ch)) ++
       [Event.pushAssistant (fullContentOf chunks), Event.awaitCorr,
        Event.corrResolved (some c)]), ?_, ?_, ?_, ?_⟩
    · simp [hr, hcorr]
    · simp
    · simp [List.countP_append, List.countP_cons, isAttachEvt, hds]
    · intro d hd
      simp only [hr, if_false, hcorr] at hd
      simp only [List.mem_cons, List.mem_append, List.cons_append,
        List.nil_append, List.mem_singleton] at hd ⊢
      tauto

theorem c4_witness :
    stReady.openaiConfigured = true ∧
    envStreamOk.replyOutcome = .success [some "¡", some "Hola!"] ∧
    getCorrections stReady.openaiConfigured envStreamOk.corrProvider
      envStreamOk.parse = some sampleCorrection ∧
    ∃ pre,
      (sendMessage stReady envStreamOk).2 =
        pre ++ [Event.attach sampleCorrection, Event.releaseBusy] ∧
      Event.pushAssistant (fullContentOf [some "¡", some "Hola!"]) ∈ pre ∧
      pre.countP isAttachEvt = 0 ∧
      ∀ d, Event.delta d ∈ (sendMessage stReady envStreamOk).2 →
        Event.delta d ∈ pre :=
  ⟨rfl, rfl, rfl,
    c4_amended_attach_after_commit stReady envStreamOk
      [some "¡", some "Hola!"] sampleCorrection
      rfl rfl (by decide) rfl rfl⟩

/-- C5 counterexample: in a successful turn whose correction promise is
still pending when the stream finishes, the assistant commit (the reply
path settling) precedes the correction resolution, and the busy release
comes only after the correction resolution — so `isStreaming` is not
released as soon as the reply path settles. -/
theorem c5_counterexample :
    occursBefore isPushAssistantEvt isCorrResolvedEvt
      (sendMessage stReady envStreamOkLate).2 ∧
    occursBefore isCorrResolvedEvt isReleaseBusyEvt
      (sendMessage stReady envStreamOkLate).2 ∧
    (sendMessage stReady envStreamOkLate).2.countP isReleaseBusyEvt = 1 := by
  refine ⟨?_, ?_, ?_⟩ <;> first
    | decide
    | (unfold occursBefore; decide)

/-- C5 (amended): on a successful reply the busy flag is released only
after the correction promise has been awaited as well (the release is the
last event and an await of the correction precedes it); only when the
reply path fails is busy released without awaiting the correction promise
— in that case, a correction promise still pending at failure time
settles only after the release. -/
theorem c5_amended_busy_release (st : AppState) (envS envF : TurnEnv)
    (chunks ys : List (Option String)) (m : String)
    (hconf : st.openaiConfigured = true) (hbusy : st.isStreaming = false)
    (hinS : (jsTrim envS.inputRaw).isEmpty = false)
    (hinF : (jsTrim envF.inputRaw).isEmpty = false)
    (houtS : envS.replyOutcome = .success chunks)
    (houtF : envF.replyOutcome = .failure ys m)
    (hlate : ys.length < envF.corrResolveAfter) :
    (∃ pre, (sendMessage st envS).2 = pre ++ [Event.releaseBusy] ∧
      Event.awaitCorr ∈ pre) ∧
    (sendMessage st envF).2.countP isAwaitCorrEvt = 0 ∧
    (∃ pre, (sendMessage st envF).2 = pre ++ [Event.releaseBusy,
      Event.corrResolved (getCorrections true envF.corrProvider envF.parse)]) := by
  have hdsA : ∀ l : List (Option String),
      (l.map fun ch => Event.delta (extractDelta ch)).countP isAwaitCorrEvt = 0 :=
    fun l => countP_map_chunks _ l (fun s => rfl)
  have hnotle : ¬ envF.corrResolveAfter ≤ ys.length := Nat.not_le.mpr hlate
  refine ⟨?_, ?_, ?_⟩
  · rw [sendMessage_accepted st envS hconf hbusy hinS]
    simp only [sendMessageBody, houtS, getCorrectionsRun, hconf]
    by_cases hr : envS.corrResolveAfter ≤ chunks.length <;>
    rcases hc : getCorrections true envS.corrProvider envS.parse with _ | c
    · refine ⟨Event.setBusy :: Event.netCorrRequest ::
        Event.renderUser (jsTrim envS.inputRaw) :: Event.pushUser (jsTrim envS.inputRaw) ::
        Event.renderPlaceholder :: Event.netStreamRequest ::
        (insertAt envS.corrResolveAfter (Event.corrResolved none)
          (chunks.map fun ch => Event.delta (extractDelta ch)) ++
         [Event.pushAssistant (fullContentOf chunks), Event.awaitCorr]), ?_, ?_⟩
      · simp [hr, hc]
      · simp
    · refine ⟨Event.setBusy :: Event.netCorrRequest ::
        Event.renderUser (jsTrim envS.inputRaw) :: Event.pushUser (jsTrim envS.inputRaw) ::
        Event.renderPlaceholder :: Event.netStreamRequest ::
        (insertAt envS.corrResolveAfter (Event.corrResolved (some c))
          (chunks.map fun ch => Event.delta (extractDelta ch)) ++
         [Event.pushAssistant (fullContentOf chunks), Event.awaitCorr,
          Event.attach c]), ?_, ?_⟩
      · simp [hr, hc]
      · simp
    · refine ⟨Event.setBusy :: Event.netCorrRequest ::
        Event.renderUser (jsTrim envS.inputRaw) :: Event.pushUser (jsTrim envS.inputRaw) ::
        Event.renderPlaceholder :: Event.netStreamRequest ::
        ((chunks.map fun ch => Event.delta (extractDelta ch)) ++
         [Event.pushAssistant (fullContentOf chunks), Event.awaitCorr,
          Event.corrResolved none]), ?_, ?_⟩
      · simp [hr, hc]
      · simp
    · refine ⟨Event.setBusy :: Event.netCorrRequest ::
        Event.renderUser (jsTrim envS.inputRaw) :: Event.pushUser (jsTrim envS.inputRaw) ::
        Event.renderPlaceholder :: Event.netStreamRequest ::
        ((chunks.map fun ch => Event.delta (extractDelta ch)) ++
         [Event.pushAssistant (fullContentOf chunks), Event.awaitCorr,
          Event.corrResolved (some c), Event.attach c]), ?_, ?_⟩
      · simp [hr, hc]
      · simp
  · rw [sendMessage_accepted st envF hconf hbusy hinF]
    simp only [sendMessageBody, houtF, getCorrectionsRun, hconf]
    by_cases hauth : (strIncludes m "401" || strIncludes m "API key") = true <;>
      simp [hnotle, hauth, List.countP_append, List.countP_cons,
        isAwaitCorrEvt, hdsA]
  · rw [sendMessage_accepted st envF hconf hbusy hinF]
    simp only [sendMessageBody, houtF, getCorrectionsRun, hconf]
    by_cases hauth : (strIncludes m "401" || strIncludes m "API key") = true
    · refine ⟨Event.setBusy :: Event.netCorrRequest ::
        Event.renderUser (jsTrim envF.inputRaw) :: Event.pushUser (jsTrim envF.inputRaw) ::
        Event.renderPlaceholder :: Event.netStreamRequest ::
        ((ys.map fun ch => Event.delta (extractDelta ch)) ++
         [Event.renderError ("Error: " ++ m), Event.scheduleShowSettings 1000]), ?_⟩
      simp [hnotle, hauth]
    · refine ⟨Event.setBusy :: Event.netCorrRequest ::
        Event.renderUser (jsTrim envF.inputRaw) :: Event.pushUser (jsTrim envF.inputRaw) ::
        Event.renderPlaceholder :: Event.netStreamRequest ::
        ((ys.map fun ch => Event.delta (extractDelta ch)) ++
         [Event.renderError ("Error: " ++ m)]), ?_⟩
      simp [hnotle, hauth]

theorem c5_witness :
    stReady.isStreaming = false ∧
    envStreamFail.replyOutcome = .failure [some "par"] "401 Unauthorized" ∧
    (1 : Nat) < envStreamFail.corrResolveAfter ∧
    ((∃ pre, (sendMessage stReady envStreamOk).2 = pre ++ [Event.releaseBusy] ∧
        Event.awaitCorr ∈ pre) ∧
      (sendMessage stReady envStreamFail).2.countP isAwaitCorrEvt = 0 ∧
      (∃ pre, (sendMessage stReady envStreamFail).2 = pre ++ [Event.releaseBusy,
        Event.corrResolved (getCorrections true envStreamFail.corrProvider
          envStreamFail.parse)])) :=
  ⟨rfl, rfl, by decide,
    c5_amended_busy_release stReady envStreamOk envStreamFail
      [some "¡", some "Hola!"] [some "par"] "401 Unauthorized"
      rfl rfl (by decide) (by decide) rfl rfl (by decide)⟩

/-- C6: `getCorrections` returns null — not an error — when the provider
request throws, when the response has no content, and when parsing throws;
with a null correction result no annotation is attached, no error entry is
rendered, and the busy-flag trajectory of the turn is exactly set-then-
release, unaffected by the correction outcome. -/
theorem c6_corrections_null_silent (st : AppState) (env : TurnEnv)
    (chunks : List (Option String))
    (p : String → JsonParseResult) (m s em : String)
    (hconf : st.openaiConfigured = true) (hbusy : st.isStreaming = false)
    (hin : (jsTrim env.inputRaw).isEmpty = false)
    (hout : env.replyOutcome = .success chunks)
    (hp : p s = .parseError em)
    (hnone : getCorrections st.openaiConfigured env.corrProvider env.parse = none) :
    getCorrections true (Except.error m) p = none ∧
    getCorrections true (Except.ok none) p = none ∧
    getCorrections true (Except.ok (some s)) p = none ∧
    (sendMessage st env).2.countP isAttachEvt = 0 ∧
    (sendMessage st env).2.countP isRenderErrorEvt = 0 ∧
    (sendMessage st env).2.filter isBusyEvt = [Event.setBusy, Event.releaseBusy] := by
  rw [hconf] at hnone
  have hdsAt := countP_map_chunks isAttachEvt chunks (fun _ => rfl)
  have hdsRe := countP_map_chunks isRenderErrorEvt chunks (fun _ => rfl)
  have hdsBz := filter_map_chunks isBusyEvt chunks (fun _ => rfl)
  refine ⟨by simp [getCorrections], by simp [getCorrections],
    by simp [getCorrections, hp], ?_, ?_, ?_⟩
  · rw [sendMessage_accepted st env hconf hbusy hin]
    simp only [sendMessageBody, hout, getCorrectionsRun, hconf]
    by_cases hr : env.corrResolveAfter ≤ chunks.length <;>
      simp [hr, hnone, List.countP_append, List.countP_cons, countP_insertAt,
        isAttachEvt, hdsAt]
  · rw [sendMessage_accepted st env hconf hbusy hin]
    simp only [sendMessageBody, hout, getCorrectionsRun, hconf]
    by_cases hr : env.corrResolveAfter ≤ chunks.length <;>
      simp [hr, hnone, List.countP_append, List.countP_cons, countP_insertAt,
        isRenderErrorEvt, hdsRe]
  · rw [sendMessage_accepted st env hconf hbusy hin]
    simp only [sendMessageBody, hout, getCorrectionsRun, hconf]
    by_cases hr : env.corrResolveAfter ≤ chunks.length <;>
      simp [hr, hnone, List.filter_append, List.filter_cons, filter_insertAt_false,
        isBusyEvt, hdsBz]

theorem c6_witness :
    parseFails "notjson" = .parseError "notjson" ∧
    getCorrections stReady.openaiConfigured envCorrFail.corrProvider
      envCorrFail.parse = none ∧
    (getCorrections true (Except.error "boom") parseFails = none ∧
      getCorrections true (Except.ok none) parseFails = none ∧
      getCorrections true (Except.ok (some "notjson")) parseFails = none ∧
      (sendMessage stReady envCorrFail).2.countP isAttachEvt = 0 ∧
      (sendMessage stReady envCorrFail).2.countP isRenderErrorEvt = 0 ∧
      (sendMessage stReady envCorrFail).2.filter isBusyEvt =
        [Event.setBusy, Event.releaseBusy]) :=
  ⟨rfl, rfl,
    c6_corrections_null_silent stReady envCorrFail [some "¡Hola!"]
      parseFails "boom" "notjson" "notjson"
      rfl rfl (by decide) rfl rfl rfl⟩

/-- C7 counterexample: calling `getCorrections` with no credential
configured returns null silently — an empty event trace, so no network
attempt but also no ConfigurationError signal of any kind, contrary to the
claim that both gateway operations signal a ConfigurationError. -/
theorem c7_counterexample :
    getCorrections false (Except.ok (some "payload")) parseAlways = none ∧
    (getCorrectionsRun false (Except.ok (some "payload")) parseAlways).2 = [] :=
  ⟨rfl, rfl⟩

/-- C7 (amended): with no credential configured, `sendMessage` performs
zero network calls, leaves Conversation State unchanged, and synchronously
signals the configuration problem by alerting and showing the settings
prompt; `getCorrections` without a credential synchronously returns null
with no network attempt and no error signal. -/
theorem c7_amended_no_credential (st : AppState) (env : TurnEnv)
    (pr : Except String (Option String)) (p : String → JsonParseResult)
    (hconf : st.openaiConfigured = false) :
    (sendMessage st env).1.messages = st.messages ∧
    (sendMessage st env).2 = [Event.alertNoKey, Event.showSettings] ∧
    (sendMessage st env).2.countP isNetEvt = 0 ∧
    (sendMessage st env).1.settingsVisible = true ∧
    getCorrections false pr p = none ∧
    (getCorrectionsRun false pr p).2 = [] := by
  refine ⟨?_, ?_, ?_, ?_, ?_, ?_⟩
  · simp [sendMessage, hconf]
  · simp [sendMessage, hconf]
  · simp [sendMessage, hconf, List.countP_cons, isNetEvt]
  · simp [sendMessage, hconf]
  · simp [getCorrections]
  · simp [getCorrectionsRun]

theorem c7_witness :
    (initState false).openaiConfigured = false ∧
    ((sendMessage (initState false) envStreamOk).1.messages =
        (initState false).messages ∧
      (sendMessage (initState false) envStreamOk).2 =
        [Event.alertNoKey, Event.showSettings] ∧
      (sendMessage (initState false) envStreamOk).2.countP isNetEvt = 0 ∧
      (sendMessage (initState false) envStreamOk).1.settingsVisible = true ∧
      getCorrections false (Except.ok (some "payload")) parseAlways = none ∧
      (getCorrectionsRun false (Except.ok (some "payload")) parseAlways).2 = []) :=
  ⟨rfl,
    c7_amended_no_credential (initState false) envStreamOk
      (Except.ok (some "payload")) parseAlways rfl⟩

/-- C8: while a turn is in flight (`isStreaming` true), a call to
`sendMessage` leaves Conversation State unchanged, issues no network
request, appends and attaches nothing, and leaves the in-flight turn's
busy flag as it is. -/
theorem c8_reentry_guard (st : AppState) (env : TurnEnv)
    (hbusy : st.isStreaming = true) :
    (sendMessage st env).1.messages = st.messages ∧
    (sendMessage st env).2.countP isNetEvt = 0 ∧
    (sendMessage st env).2.countP isPushEvt = 0 ∧
    (sendMessage st env).2.countP isAttachEvt = 0 ∧
    (sendMessage st env).1.isStreaming = true := by
  by_cases hc : st.openaiConfigured = false
  · simp [sendMessage, hc, hbusy, List.countP_cons, isNetEvt, isPushEvt, isAttachEvt]
  · simp [sendMessage, hc, hbusy]

theorem c8_witness :
    ({ stReady with isStreaming := true } : AppState).isStreaming = true ∧
    ((sendMessage { stReady with isStreaming := true } envStreamOk).1.messages =
        ({ stReady with isStreaming := true } : AppState).messages ∧
      (sendMessage { stReady with isStreaming := true } envStreamOk).2.countP
        isNetEvt = 0 ∧
      (sendMessage { stReady with isStreaming := true } envStreamOk).2.countP
        isPushEvt = 0 ∧
      (sendMessage { stReady with isStreaming := true } envStreamOk).2.countP
        isAttachEvt = 0 ∧
      (sendMessage { stReady with isStreaming := true } envStreamOk).1.isStreaming =
        true) :=
  ⟨rfl, c8_reentry_guard { stReady with isStreaming := true } envStreamOk rfl⟩

/-- C9: every reply-path failure renders an error entry `Error: <msg>` in
the transcript, and the settings prompt is scheduled to reopen — always
with the fixed 1000 ms delay — exactly when the failure message contains
the substring 401 or the substring API key. -/
theorem c9_auth_error_prompt (st : AppState) (env : TurnEnv)
    (ys : List (Option String)) (m : String)
    (hconf : st.openaiConfigured = true) (hbusy : st.isStreaming = false)
    (hin : (jsTrim env.inputRaw).isEmpty = false)
    (hout : env.replyOutcome = .failure ys m) :
    Event.renderError ("Error: " ++ m) ∈ (sendMessage st env).2 ∧
    (Event.scheduleShowSettings 1000 ∈ (sendMessage st env).2 ↔
      (strIncludes m "401" || strIncludes m "API key") = true) ∧
    (sendMessage st env).2.countP isSchedNot1000 = 0 := by
  rw [sendMessage_accepted st env hconf hbusy hin]
  simp only [sendMessageBody, hout, getCorrectionsRun, hconf]
  have hds := countP_map_chunks isSchedNot1000 ys (fun _ => rfl)
  refine ⟨?_, ?_, ?_⟩
  · by_cases hr : env.corrResolveAfter ≤ ys.length <;>
    by_cases hauth : (strIncludes m "401" || strIncludes m "API key") = true <;>
      simp [hr, hauth, List.mem_append, mem_insertAt]
  · by_cases hr : env.corrResolveAfter ≤ ys.length <;>
    by_cases hauth : (strIncludes m "401" || strIncludes m "API key") = true <;>
      simp [hr, hauth, List.mem_append, mem_insertAt, List.mem_map]
  · by_cases hr : env.corrResolveAfter ≤ ys.length <;>
    by_cases hauth : (strIncludes m "401" || strIncludes m "API key") = true <;>
      simp [hr, hauth, List.countP_append, List.countP_cons, countP_insertAt,
        isSchedNot1000, hds]

theorem c9_witness :
    (strIncludes "401 Unauthorized" "401" ||
      strIncludes "401 Unauthorized" "API key") = true ∧
    (strIncludes "network down" "401" ||
      strIncludes "network down" "API key") = false ∧
    (Event.renderError ("Error: " ++ "401 Unauthorized") ∈
        (sendMessage stReady envStreamFail).2 ∧
      (Event.scheduleShowSettings 1000 ∈ (sendMessage stReady envStreamFail).2 ↔
        (strIncludes "401 Unauthorized" "401" ||
          strIncludes "401 Unauthorized" "API key") = true) ∧
      (sendMessage stReady envStreamFail).2.countP isSchedNot1000 = 0) :=
  ⟨by decide, by decide,
    c9_auth_error_prompt stReady envStreamFail [some "par"] "401 Unauthorized"
      rfl rfl (by decide) rfl⟩

/-- C10: when the reply stream throws, the turn's correction promise is
never awaited and no correction is attached, even though the correction
request itself succeeded with a non-null result. -/
theorem c10_corrections_discarded_on_failure (st : AppState) (env : TurnEnv)
    (ys : List (Option String)) (m : String) (c : CorrectionResponse)
    (hconf : st.openaiConfigured = true) (hbusy : st.isStreaming = false)
    (hin : (jsTrim env.inputRaw).isEmpty = false)
    (hout : env.replyOutcome = .failure ys m)
    (hcorr : getCorrections st.openaiConfigured env.corrProvider env.parse = some c) :
    (sendMessage st env).2.countP isAwaitCorrEvt = 0 ∧
    (sendMessage st env).2.countP isAttachEvt = 0 := by
  rw [sendMessage_accepted st env hconf hbusy hin]
  simp only [sendMessageBody, hout, getCorrectionsRun, hconf]
  have hdsAw := countP_map_chunks isAwaitCorrEvt ys (fun _ => rfl)
  have hdsAt := countP_map_chunks isAttachEvt ys (fun _ => rfl)
  constructor <;>
  · by_cases hr : env.corrResolveAfter ≤ ys.length <;>
    by_cases hauth : (strIncludes m "401" || strIncludes m "API key") = true <;>
      simp [hr, hauth, List.countP_append, List.countP_cons, countP_insertAt,
        isAwaitCorrEvt, isAttachEvt, hdsAw, hdsAt]

theorem c10_witness :
    getCorrections stReady.openaiConfigured envStreamFail.corrProvider
      envStreamFail.parse = some sampleCorrection ∧
    envStreamFail.replyOutcome = .failure [some "par"] "401 Unauthorized" ∧
    ((sendMessage stReady envStreamFail).2.countP isAwaitCorrEvt = 0 ∧
      (sendMessage stReady envStreamFail).2.countP isAttachEvt = 0) :=
  ⟨rfl, rfl,
    c10_corrections_discarded_on_failure stReady envStreamFail
      [some "par"] "401 Unauthorized" sampleCorrection
      rfl rfl (by decide) rfl rfl⟩

end LanguageTutor
